import Mathlib

/-!
# chromedp_post: request interception and response correlation

A shallow embedding of `main.go`. The browser and the protocol transport
are external collaborators: their answers (the result of every protocol
command, the events delivered while a command runs) are read from an
explicit `Browser` value, and everything `ChromeRequest` does to them is
recorded in a trace of operations.

Go values are embedded as follows.
* `string` is `String`; the comparisons of the source (`==`, `strings.HasPrefix`)
  are comparisons of the character sequences.
* `[]byte` is `Option (List Byte)` and `map[string]string` is
  `Option (GoMap String)`, `none` being Go's `nil`.
* `error` is `Option GoError`, `none` being `nil`.
* a pointer that the source compares with or initialises to `nil` is an `Option`.
-/

namespace ChromedpPost

/-! ## Data model -/

/-- One byte of a Go `[]byte`. -/
abbrev Byte := Fin 256

/-- Go `byte(n)`: truncation of an unsigned integer to its low eight bits. -/
def toByte (n : Nat) : Byte := ⟨n % 256, Nat.mod_lt n (by decide)⟩

/-- A non-nil Go `error` value, identified by its message. -/
structure GoError where
  msg : String
deriving DecidableEq, Repr

/-- A Go `map[string]V`: every key occurs once. `entries` lists the pairs in the
order in which a `for k, v := range m` loop visits them in the run at hand (Go
leaves that order unspecified). -/
structure GoMap (V : Type) where
  entries : List (String × V)
  nodup : (entries.map Prod.fst).Nodup

/-- Go `len(m)` for a map. -/
def GoMap.len {V : Type} (m : GoMap V) : Nat := m.entries.length

/-- The `cRequest` struct of `main.go`. -/
structure cRequest where
  URL : String
  Method : String
  Headers : Option (GoMap String)
  Body : Option (List Byte)

/-- Type `network.Headers` (`map[string]interface{}`); only the presence of keys
is inspected by the source, the values are kept as their text. -/
abbrev Headers := List (String × String)

/-- The fields of `network.Response` that `main.go` reads. -/
structure NetworkResponse where
  URL : String
  Status : Int
  Headers : Headers
deriving DecidableEq, Repr

/-- The `cResponse` struct of `main.go`. -/
structure cResponse where
  Status : Int
  URL : String
  Headers : Headers
  Body : List Byte
deriving DecidableEq, Repr

/-- The fields of `network.Request` carried by the events. -/
structure NetworkRequest where
  URL : String
  Method : String
  Headers : Headers
deriving DecidableEq, Repr

/-- Event `network.EventRequestWillBeSent`. -/
structure EventRequestWillBeSent where
  RequestID : String
  Request : NetworkRequest
deriving DecidableEq, Repr

/-- Event `network.EventResponseReceived`. -/
structure EventResponseReceived where
  RequestID : String
  Response : NetworkResponse
deriving DecidableEq, Repr

/-- Event `fetch.EventRequestPaused`. `ResourceType` is a string type in cdproto. -/
structure EventRequestPaused where
  RequestID : String
  Request : NetworkRequest
  ResourceType : String
deriving DecidableEq, Repr

/-- The dynamic type of the `interface{}` handed to the `ListenTarget` callback:
the three cases of the type switch, and every other event type. -/
inductive Event where
  | requestWillBeSent (e : EventRequestWillBeSent)
  | responseReceived (e : EventResponseReceived)
  | requestPaused (e : EventRequestPaused)
  | other (name : String)
deriving DecidableEq, Repr

/-- Constant `network.ResourceTypeImage` of cdproto. -/
def ResourceTypeImage : String := "Image"

/-- Constant `network.ResourceTypeOther` of cdproto. -/
def ResourceTypeOther : String := "Other"

/-- Constant `network.ErrorReasonBlockedByClient` of cdproto. -/
def ErrorReasonBlockedByClient : String := "BlockedByClient"

/-- Struct `fetch.HeaderEntry`. -/
structure HeaderEntry where
  Name : String
  Value : String
deriving DecidableEq, Repr

/-- Struct `fetch.ContinueRequestParams`, as built by `fetch.ContinueRequest(id)` and its
`With...` setters. A field left at its zero value (`""`, an empty slice) is
omitted from the command sent to the browser (`omitempty`). -/
structure ContinueRequestParams where
  RequestID : String
  Method : String
  PostData : String
  Headers : List HeaderEntry
deriving DecidableEq, Repr

/-- A protocol command issued on the command channel by the interception handler. -/
inductive Command where
  | failRequest (RequestID : String) (ErrorReason : String)
  | continueRequest (p : ContinueRequestParams)
deriving DecidableEq, Repr

/-! ## Standard base64 (`encoding/base64`, `StdEncoding`) -/

namespace base64

/-- The alphabet `encodeStd` of `encoding/base64`. -/
def encodeStd : List Char :=
  "ABCDEFGHIJKLMNOPQRSTUVWXYZabcdefghijklmnopqrstuvwxyz0123456789+/".data

/-- The padding character `StdPadding`. -/
def padChar : Char := '='

/-- Lookup `enc.encode[i]`. -/
def encodeDigit (i : Nat) : Char := encodeStd.getD i padChar

/-- Lookup `enc.decodeMap[c]`: the position of `c` in the alphabet, `none` for a
character outside it (`0xFF` in the Go table). -/
def decodeDigit (c : Char) : Option Nat :=
  let i := encodeStd.indexOf c
  if i < 64 then some i else none

/-- Function `(*Encoding).Encode` for `StdEncoding`: three bytes give four digits, a
tail of one or two bytes is padded with `=`. As in the source, the bytes are
packed into `val` (`a<<16 | b<<8 | c`, here a sum since the fields do not
overlap) and `val>>k & 0x3F` is `val / 2^k % 64`. -/
def encode : List Byte → List Char
  | [] => []
  | [a] =>
    let val := a.val * 65536
    [encodeDigit (val / 262144 % 64), encodeDigit (val / 4096 % 64), padChar, padChar]
  | [a, b] =>
    let val := a.val * 65536 + b.val * 256
    [encodeDigit (val / 262144 % 64), encodeDigit (val / 4096 % 64),
      encodeDigit (val / 64 % 64), padChar]
  | a :: b :: c :: rest =>
    let val := a.val * 65536 + b.val * 256 + c.val
    encodeDigit (val / 262144 % 64) :: encodeDigit (val / 4096 % 64) ::
      encodeDigit (val / 64 % 64) :: encodeDigit (val % 64) :: encode rest

/-- Function `(*Encoding).EncodeToString`. -/
def EncodeToString (src : List Byte) : String := String.mk (encode src)

/-- The quantum loop of `(*Encoding).Decode` on input without line breaks: four
digits give three bytes; padding is accepted only in the last quantum, as `xx==`
(one byte) or `xxx=` (two bytes); anything else is a `CorruptInputError`
(`none`). -/
def decodeQuanta : List Char → Option (List Byte)
  | [] => some []
  | c0 :: c1 :: c2 :: c3 :: rest =>
    if c3 = padChar then
      if rest ≠ [] then none
      else if c2 = padChar then
        match decodeDigit c0, decodeDigit c1 with
        | some v0, some v1 =>
          let val := v0 * 262144 + v1 * 4096
          some [toByte (val / 65536)]
        | _, _ => none
      else
        match decodeDigit c0, decodeDigit c1, decodeDigit c2 with
        | some v0, some v1, some v2 =>
          let val := v0 * 262144 + v1 * 4096 + v2 * 64
          some [toByte (val / 65536), toByte (val / 256)]
        | _, _, _ => none
    else
      match decodeDigit c0, decodeDigit c1, decodeDigit c2, decodeDigit c3, decodeQuanta rest with
      | some v0, some v1, some v2, some v3, some tail =>
        let val := v0 * 262144 + v1 * 4096 + v2 * 64 + v3
        some (toByte (val / 65536) :: toByte (val / 256) :: toByte val :: tail)
      | _, _, _, _, _ => none
  | _ => none

/-- Function `(*Encoding).DecodeString` for `StdEncoding`: `\r` and `\n` are skipped
wherever they stand, the rest is decoded quantum by quantum. `none` is a
decoding error. -/
def DecodeString (s : String) : Option (List Byte) :=
  decodeQuanta (s.data.filter (fun c => c != '\r' && c != '\n'))

end base64

/-! ## The event listener of `ChromeRequest` -/

/-- Function `strings.HasPrefix`. -/
def HasPrefix (s pre : String) : Bool := pre.data.isPrefixOf s.data

/-- Go `_, ok := h[key]` on `network.Headers`. -/
def Headers.hasKey (h : Headers) (key : String) : Bool := h.any (fun kv => kv.1 == key)

/-- The variables captured by the `ListenTarget` callback: `reqID` (declared in the
enclosing action, zero value `""`) and `res` (declared at the top of
`ChromeRequest`, initially `nil`). -/
structure Listener where
  reqID : String
  res : Option NetworkResponse
deriving DecidableEq, Repr

/-- The listener state when the callback is registered. -/
def Listener.init : Listener := { reqID := "", res := none }

/-- Case `*network.EventRequestWillBeSent` of the type switch. -/
def onRequestWillBeSent (l : Listener) (reqEvent : EventRequestWillBeSent) : Listener :=
  if !(reqEvent.Request.Headers.hasKey "Referer") then
    if HasPrefix reqEvent.Request.URL "http" then
      { l with reqID := reqEvent.RequestID }
    else l
  else l

/-- Case `*network.EventResponseReceived` of the type switch. -/
def onResponseReceived (l : Listener) (resEvent : EventResponseReceived) : Listener :=
  if resEvent.RequestID = l.reqID then
    { l with res := some resEvent.Response }
  else l

/-- The loop `for k, v := range req.Headers { headers = append(headers, ...) }`. -/
def rangeAppend (headers : List HeaderEntry) : List (String × String) → List HeaderEntry
  | [] => headers
  | (k, v) :: rest => rangeAppend (headers ++ [{ Name := k, Value := v }]) rest

/-- The body of the goroutine started in case `*fetch.EventRequestPaused`: the list
of commands it executes (`.Do(ctx)`), in order. The result of `Do` is dropped
by the source. -/
def requestPausedTask (req : cRequest) (reqEvent : EventRequestPaused) : List Command :=
  if reqEvent.ResourceType = ResourceTypeImage ∨ reqEvent.ResourceType = ResourceTypeOther then
    [Command.failRequest reqEvent.RequestID ErrorReasonBlockedByClient]
  else
    let headers : List HeaderEntry := []
    let withHeader := false
    let (headers, withHeader) :=
      match req.Headers with
      | some m => if m.len > 0 then (rangeAppend headers m.entries, true) else (headers, withHeader)
      | none => (headers, withHeader)
    let f : ContinueRequestParams :=
      { RequestID := reqEvent.RequestID, Method := req.Method, PostData := "", Headers := [] }
    let f := if withHeader then { f with Headers := headers } else f
    let f :=
      if req.Method = "POST" ∨ req.Method = "PUT" ∨ req.Method = "DELETE" then
        match req.Body with
        | some body =>
          if body.length > 0 then { f with PostData := base64.EncodeToString body } else f
        | none => f
      else f
    [Command.continueRequest f]

/-- The callback passed to `chromedp.ListenTarget`: the new values of the captured
variables and the commands issued for the event. The goroutine of the
request-paused case touches neither `reqID` nor `res`; its commands are
recorded at the point where it is started. -/
def handle (req : cRequest) (l : Listener) : Event → Listener × List Command
  | Event.requestWillBeSent e => (onRequestWillBeSent l e, [])
  | Event.responseReceived e => (onResponseReceived l e, [])
  | Event.requestPaused e => (l, requestPausedTask req e)
  | Event.other _ => (l, [])

/-- The callback applied to the events in their order of delivery. -/
def handleAll (req : cRequest) : Listener → List Event → Listener × List Command
  | l, [] => (l, [])
  | l, ev :: evs =>
    let (l1, cs1) := handle req l ev
    let (l2, cs2) := handleAll req l1 evs
    (l2, cs1 ++ cs2)

/-! ## The call `ChromeRequest` -/

/-- The things `chromedp.Run` does in `ChromeRequest`, in the order of the source:
its own set-up of the browser and the tab, then the actions passed to it. The
last action of the source is split in its two protocol commands. -/
inductive Step where
  | runSetup
  | networkEnable
  | fetchEnable
  | listenTarget
  | navigate
  | waitReady
  | getDocument
  | getOuterHTML
deriving DecidableEq, Repr

/-- The collaborators of one call: the error (or `nil`) with which each protocol
command answers, the node and the markup returned by the two `dom` commands,
and the events the browser delivers to a registered listener while a step runs.
A navigation that exceeds the deadline set by `RunWithTimeOut` answers with the
deadline error of its context. -/
structure Browser where
  runSetup : Option GoError
  networkEnable : Option GoError
  fetchEnable : Option GoError
  navigate : Option GoError
  waitReady : Option GoError
  getDocument : Except GoError Nat
  getOuterHTML : Nat → String × Option GoError
  events : Step → List Event

/-- An operation performed by `ChromeRequest`, as recorded in its trace. -/
inductive Op where
  /-- Line 124, `chromedp.NewExecAllocator`; the cancel function it returns is
  overwritten by line 125 and never called. -/
  | NewExecAllocator
  /-- Line 125, `chromedp.NewContext`. -/
  | NewContext
  /-- A step of `chromedp.Run` was started. -/
  | step (s : Step)
  /-- A command issued by a goroutine of the listener. -/
  | command (c : Command)
  /-- The expression statement `chromedp.Stop()` of lines 205 and 210; the value it
  returns is dropped. -/
  | Stop
  /-- The expression statement `ctx.Done()` of lines 206 and 211; the channel it
  returns is dropped. -/
  | Done
  /-- The deferred `cancel()` of line 126: the cancel function of the browser
  context. -/
  | cancel
deriving DecidableEq, Repr

/-- The local variables of `ChromeRequest` that the actions write, whether the
listener is registered, and the trace so far. -/
structure Call where
  body : String
  listener : Listener
  listening : Bool
  trace : List Op

/-- A `chromedp.Action`: `Do` returns an error or `nil` and may change the call. -/
abbrev Action := Call → Option GoError × Call

/-- The browser delivers the events of step `s`; a registered listener handles them
in order. -/
def deliver (req : cRequest) (b : Browser) (s : Step) (c : Call) : Call :=
  if c.listening then
    let (l, cmds) := handleAll req c.listener (b.events s)
    { c with listener := l, trace := c.trace ++ cmds.map Op.command }
  else c

/-- A protocol command as an action: it is recorded, the events arriving while it
runs are handled, and it answers with `result`. -/
def protocolStep (req : cRequest) (b : Browser) (s : Step) (result : Option GoError) : Action :=
  fun c => (result, deliver req b s { c with trace := c.trace ++ [Op.step s] })

/-- The first `chromedp.ActionFunc` (lines 133-186): declares `reqID`, registers the
callback and returns `nil`. -/
def listenAction : Action :=
  fun c =>
    (none, { c with listener := { c.listener with reqID := "" }, listening := true,
                    trace := c.trace ++ [Op.step Step.listenTarget] })

/-- Function `Tasks.Do`: the actions in order, stopping at the first error. -/
def TasksDo : List Action → Action
  | [], c => (none, c)
  | a :: rest, c =>
    match a c with
    | (some err, c1) => (some err, c1)
    | (none, c1) => TasksDo rest c1

/-- Function `RunWithTimeOut`: the tasks run under a context with a deadline of
`timeout` seconds and their result is returned as it is; a task cut short by the
deadline answers with the deadline error, which is part of the answer the
`Browser` gives for it. -/
def RunWithTimeOut (_timeout : Nat) (tasks : List Action) : Action := TasksDo tasks

/-- The last `chromedp.ActionFunc` (lines 193-202). -/
def documentAction (req : cRequest) (b : Browser) : Action :=
  fun c =>
    let c1 := deliver req b Step.getDocument { c with trace := c.trace ++ [Op.step Step.getDocument] }
    match b.getDocument with
    | Except.error err => (some err, c1)
    | Except.ok nodeID =>
      let c2 := deliver req b Step.getOuterHTML
        { c1 with trace := c1.trace ++ [Op.step Step.getOuterHTML] }
      let (html, err) := b.getOuterHTML nodeID
      (err, { c2 with body := html })

/-- Function `chromedp.Run`: set up the browser and the tab, then run the actions. -/
def Run (b : Browser) (actions : List Action) : Action :=
  fun c =>
    let c1 := { c with trace := c.trace ++ [Op.step Step.runSetup] }
    match b.runSetup with
    | some err => (some err, c1)
    | none => TasksDo actions c1

/-- How a call of `ChromeRequest` ends: it returns its pair of results, or the
goroutine panics. -/
inductive Outcome where
  | returned (resp : Option cResponse) (err : Option GoError)
  | panicked (reason : String)
deriving DecidableEq, Repr

/-- Conversion `[]byte(s)`: the bytes of the string. -/
def bytesOf (s : String) : List Byte := s.toUTF8.data.toList.map (fun x => x.val)

/-- Lines 102-125 and 128-217 of `ChromeRequest`: everything but the deferred call. -/
def ChromeRequestBody (req : cRequest) (b : Browser) : Outcome × List Op :=
  let c0 : Call :=
    { body := "", listener := Listener.init, listening := false,
      trace := [Op.NewExecAllocator, Op.NewContext] }
  let (err, c) := Run b
    [ protocolStep req b Step.networkEnable b.networkEnable,
      protocolStep req b Step.fetchEnable b.fetchEnable,
      listenAction,
      RunWithTimeOut 10 [protocolStep req b Step.navigate b.navigate],
      protocolStep req b Step.waitReady b.waitReady,
      documentAction req b ] c0
  match err with
  | some e => (Outcome.returned none (some e), c.trace ++ [Op.Stop, Op.Done])
  | none =>
    let trace := c.trace ++ [Op.Stop, Op.Done]
    match c.listener.res with
    | none => (Outcome.panicked "invalid memory address or nil pointer dereference", trace)
    | some res =>
      (Outcome.returned
        (some { Status := res.Status, URL := req.URL, Headers := res.Headers,
                Body := bytesOf c.body }) none, trace)

/-- Function `ChromeRequest`: the body, then the deferred `cancel()`, which Go runs on
every way out of the function, a panic included. -/
def ChromeRequest (req : cRequest) (b : Browser) : Outcome × List Op :=
  let (out, trace) := ChromeRequestBody req b
  (out, trace ++ [Op.cancel])

/-! ## Vocabulary of the specification -/

/-- The resource types the interception gate blocks. -/
def blocked (resourceType : String) : Prop :=
  resourceType = ResourceTypeImage ∨ resourceType = ResourceTypeOther

instance (resourceType : String) : Decidable (blocked resourceType) :=
  inferInstanceAs (Decidable (resourceType = ResourceTypeImage ∨ resourceType = ResourceTypeOther))

/-- The methods for which the source attaches the caller's body. -/
def carriesBody (method : String) : Prop :=
  method = "POST" ∨ method = "PUT" ∨ method = "DELETE"

instance (method : String) : Decidable (carriesBody method) :=
  inferInstanceAs (Decidable (method = "POST" ∨ method = "PUT" ∨ method = "DELETE"))

/-- A URL with the scheme `http://` or `https://`. -/
def hasHTTPScheme (url : String) : Bool :=
  HasPrefix url "http://" || HasPrefix url "https://"

/-- The request id a command is issued for. -/
def Command.RequestID : Command → String
  | Command.failRequest id _ => id
  | Command.continueRequest p => p.RequestID

/-- A request-sent event qualifies as the navigation: its URL starts with `http` and
its headers have no `Referer` key. -/
def qualifies (e : EventRequestWillBeSent) : Bool :=
  HasPrefix e.Request.URL "http" && !(e.Request.Headers.hasKey "Referer")

/-- The tracked identifier after the listener, started with `reqID` unset, has
handled `evs`. -/
def trackedAfter (req : cRequest) (evs : List Event) : String :=
  (handleAll req Listener.init evs).1.reqID

/-- The order of the steps in the source. -/
def pipeline : List Step :=
  [Step.runSetup, Step.networkEnable, Step.fetchEnable, Step.listenTarget, Step.navigate,
    Step.waitReady, Step.getDocument, Step.getOuterHTML]

/-- The error with which a step answers when it is reached (`none`: it succeeds).
Registering the listener cannot fail; the markup is asked for the node that
`getDocument` returned. -/
def Browser.stepError (b : Browser) : Step → Option GoError
  | Step.runSetup => b.runSetup
  | Step.networkEnable => b.networkEnable
  | Step.fetchEnable => b.fetchEnable
  | Step.listenTarget => none
  | Step.navigate => b.navigate
  | Step.waitReady => b.waitReady
  | Step.getDocument =>
    match b.getDocument with
    | Except.error e => some e
    | Except.ok _ => none
  | Step.getOuterHTML =>
    match b.getDocument with
    | Except.error _ => none
    | Except.ok nodeID => (b.getOuterHTML nodeID).2

/-- The first step of the pipeline that fails, with its error. -/
def firstFailure (b : Browser) : Option (Step × GoError) :=
  pipeline.findSome? (fun s => (b.stepError s).map (fun e => (s, e)))

/-- The markup of the document when every step succeeds. -/
def Browser.outerHTML (b : Browser) : String :=
  match b.getDocument with
  | Except.error _ => ""
  | Except.ok nodeID => (b.getOuterHTML nodeID).1

/-- The steps recorded in a trace. -/
def executedSteps (trace : List Op) : List Step :=
  trace.filterMap (fun o => match o with
    | Op.step s => some s
    | _ => none)

/-- The events a listener handles in a call in which every step succeeds. -/
def delivered (b : Browser) : List Event :=
  b.events Step.navigate ++ b.events Step.waitReady ++ b.events Step.getDocument ++
    b.events Step.getOuterHTML

/-- Response `r` is the response of the last response-received event of `evs` whose
request id was the tracked identifier when the event was handled. -/
def LastCaptured (req : cRequest) (evs : List Event) (r : NetworkResponse) : Prop :=
  ∃ pre e post, evs = pre ++ Event.responseReceived e :: post ∧ e.Response = r ∧
    e.RequestID = trackedAfter req pre ∧
    ∀ post1 e2 post2, post = post1 ++ Event.responseReceived e2 :: post2 →
      e2.RequestID ≠ trackedAfter req (pre ++ Event.responseReceived e :: post1)

/-! ## Concrete inputs -/

/-- The `POST` request of `main`. -/
def mainPostRequest : cRequest :=
  { URL := "https://httpbin.org/post"
    Method := "POST"
    Headers := some ⟨[("Content-Type", "application/json; charset=utf-8")], by simp⟩
    Body := some (bytesOf "\x7b \"test\": \"testdata\"\x7d") }

/-- The `GET` request of `main`. -/
def mainGetRequest : cRequest :=
  { URL := "https://api.myip.com", Method := "GET", Headers := none, Body := none }

/-- A browser in which every step succeeds and that delivers `evs` during the
navigation. -/
def okBrowser (html : String) (evs : List Event) : Browser :=
  { runSetup := none, networkEnable := none, fetchEnable := none, navigate := none,
    waitReady := none, getDocument := Except.ok 1, getOuterHTML := fun _ => (html, none),
    events := fun s => if s = Step.navigate then evs else [] }

/-- The event used in the concrete instances: the paused navigation request of the
`POST` example, a document. -/
def pausedDocument : EventRequestPaused :=
  { RequestID := "interception-job-1.0"
    Request := { URL := "https://httpbin.org/post", Method := "GET",
                 Headers := [("User-Agent", "HeadlessChrome"), ("Accept", "text/html")] }
    ResourceType := "Document" }

/-- A call in which nothing is requested over the network: the blank page. -/
def blankRequest : cRequest :=
  { URL := "about:blank", Method := "GET", Headers := none, Body := none }

/-- The markup of the blank page. -/
def blankHTML : String := "<html><head></head><body></body></html>"

/-- The events of the `GET` example: the navigation request is sent and paused, its
response arrives; the page then asks for an icon, which is paused too. -/
def getEvents : List Event :=
  [ Event.requestWillBeSent ⟨"1000.1", ⟨"https://api.myip.com", "GET", []⟩⟩,
    Event.requestPaused ⟨"interception-job-1.0", ⟨"https://api.myip.com", "GET", []⟩, "Document"⟩,
    Event.responseReceived ⟨"1000.1", ⟨"https://api.myip.com/", 200, [("Content-Type", "text/html")]⟩⟩,
    Event.requestPaused
      ⟨"interception-job-2.0",
        ⟨"https://api.myip.com/favicon.ico", "GET", [("Referer", "https://api.myip.com/")]⟩,
        "Other"⟩ ]

/-- A browser whose navigation runs into the deadline. -/
def timeoutBrowser : Browser :=
  { runSetup := none, networkEnable := none, fetchEnable := none,
    navigate := some ⟨"context deadline exceeded"⟩,
    waitReady := none, getDocument := Except.ok 1, getOuterHTML := fun _ => ("", none),
    events := fun _ => [] }

/-! ## Base64: decoding inverts encoding -/

namespace base64

theorem digit_table :
    ∀ n : Fin 64, decodeDigit (encodeDigit n.val) = some n.val ∧ encodeDigit n.val ≠ padChar ∧
      (encodeDigit n.val != '\r' && encodeDigit n.val != '\n') = true := by
  decide

theorem decodeDigit_encodeDigit {n : Nat} (h : n < 64) : decodeDigit (encodeDigit n) = some n :=
  (digit_table ⟨n, h⟩).1

theorem encodeDigit_ne_pad {n : Nat} (h : n < 64) : encodeDigit n ≠ padChar :=
  (digit_table ⟨n, h⟩).2.1

theorem encodeDigit_kept {n : Nat} (h : n < 64) :
    (encodeDigit n != '\r' && encodeDigit n != '\n') = true :=
  (digit_table ⟨n, h⟩).2.2

theorem padChar_kept : (padChar != '\r' && padChar != '\n') = true := by decide

theorem mod64_lt (n : Nat) : n % 64 < 64 := Nat.mod_lt n (by decide)

theorem filter_encode (src : List Byte) :
    (encode src).filter (fun c => c != '\r' && c != '\n') = encode src := by
  induction src using encode.induct with
  | case1 => rfl
  | case2 a => simp [encode, encodeDigit_kept (mod64_lt _), padChar_kept]
  | case3 a b => simp [encode, encodeDigit_kept (mod64_lt _), padChar_kept]
  | case4 a b c rest ih =>
    simp only [encode, List.filter_cons, encodeDigit_kept (mod64_lt _), if_true, ih]

theorem decodeQuanta_encode (src : List Byte) : decodeQuanta (encode src) = some src := by
  induction src using encode.induct with
  | case1 => rfl
  | case2 a =>
    have ha := a.isLt
    simp only [encode, decodeQuanta, decodeDigit_encodeDigit (mod64_lt _), if_true, ne_eq,
      not_true_eq_false, if_false]
    simp only [Option.some.injEq, List.cons.injEq, and_true, toByte]
    apply Fin.ext
    simp only
    omega
  | case3 a b =>
    have ha := a.isLt
    have hb := b.isLt
    simp only [encode, decodeQuanta, decodeDigit_encodeDigit (mod64_lt _), if_true, ne_eq,
      not_true_eq_false, if_false, encodeDigit_ne_pad (mod64_lt _)]
    simp only [Option.some.injEq, List.cons.injEq, and_true, toByte]
    refine ⟨Fin.ext ?_, Fin.ext ?_⟩ <;> simp only <;> omega
  | case4 a b c rest ih =>
    have ha := a.isLt
    have hb := b.isLt
    have hc := c.isLt
    simp only [encode, decodeQuanta, decodeDigit_encodeDigit (mod64_lt _), if_false,
      encodeDigit_ne_pad (mod64_lt _), ih]
    simp only [Option.some.injEq, List.cons.injEq, and_true, toByte]
    refine ⟨Fin.ext ?_, Fin.ext ?_, Fin.ext ?_⟩ <;> simp only <;> omega

theorem DecodeString_EncodeToString (src : List Byte) :
    DecodeString (EncodeToString src) = some src := by
  simp only [DecodeString, EncodeToString, filter_encode, decodeQuanta_encode]

theorem encode_ne_nil {src : List Byte} (h : src ≠ []) : encode src ≠ [] := by
  cases src with
  | nil => exact absurd rfl h
  | cons a t =>
    cases t with
    | nil => simp [encode]
    | cons b t =>
      cases t with
      | nil => simp [encode]
      | cons c t => simp [encode]
end base64

/-! ## The listener: helper lemmas -/

theorem rangeAppend_eq (headers : List HeaderEntry) (entries : List (String × String)) :
    rangeAppend headers entries
      = headers ++ entries.map (fun kv => { Name := kv.1, Value := kv.2 }) := by
  induction entries generalizing headers with
  | nil => simp [rangeAppend]
  | cons kv rest ih =>
    obtain ⟨k, v⟩ := kv
    simp [rangeAppend, ih]

theorem handleAll_append (req : cRequest) (l : Listener) (xs ys : List Event) :
    handleAll req l (xs ++ ys)
      = ((handleAll req (handleAll req l xs).1 ys).1,
          (handleAll req l xs).2 ++ (handleAll req (handleAll req l xs).1 ys).2) := by
  induction xs generalizing l with
  | nil => simp [handleAll]
  | cons x xs ih => simp [handleAll, ih, List.append_assoc]

theorem requestPausedTask_blocked (req : cRequest) (ev : EventRequestPaused)
    (h : blocked ev.ResourceType) :
    requestPausedTask req ev = [Command.failRequest ev.RequestID ErrorReasonBlockedByClient] := by
  unfold blocked at h
  simp [requestPausedTask, h]

/-- The command of the continue branch, field by field. -/
theorem requestPausedTask_continue (req : cRequest) (ev : EventRequestPaused)
    (h : ¬ blocked ev.ResourceType) :
    ∃ p, requestPausedTask req ev = [Command.continueRequest p] ∧
      p.RequestID = ev.RequestID ∧ p.Method = req.Method ∧
      p.Headers = (match req.Headers with
        | some m => if m.len > 0 then
            m.entries.map (fun kv => ({ Name := kv.1, Value := kv.2 } : HeaderEntry)) else []
        | none => []) ∧
      p.PostData = (if carriesBody req.Method then
        match req.Body with
        | some body => if body.length > 0 then base64.EncodeToString body else ""
        | none => ""
        else "") := by
  unfold blocked at h
  obtain ⟨url, method, headers, body⟩ := req
  by_cases hM : method = "POST" ∨ method = "PUT" ∨ method = "DELETE"
  · rcases headers with _ | m <;> rcases body with _ | body
    · simp [requestPausedTask, h, hM, carriesBody]
    · by_cases hb : 0 < body.length
      · simp [requestPausedTask, h, hM, carriesBody, hb]
      · simp [requestPausedTask, h, hM, carriesBody, hb]
    · by_cases hm : 0 < m.len
      · simp [requestPausedTask, h, hM, carriesBody, hm, rangeAppend_eq]
      · simp [requestPausedTask, h, hM, carriesBody, hm]
    · by_cases hm : 0 < m.len <;> by_cases hb : 0 < body.length
      · simp [requestPausedTask, h, hM, carriesBody, hm, hb, rangeAppend_eq]
      · simp [requestPausedTask, h, hM, carriesBody, hm, hb, rangeAppend_eq]
      · simp [requestPausedTask, h, hM, carriesBody, hm, hb]
      · simp [requestPausedTask, h, hM, carriesBody, hm, hb]
  · rcases headers with _ | m
    · simp [requestPausedTask, h, hM, carriesBody]
    · by_cases hm : 0 < m.len
      · simp [requestPausedTask, h, hM, carriesBody, hm, rangeAppend_eq]
      · simp [requestPausedTask, h, hM, carriesBody, hm]

/-! ## The interception gate -/

/-- C1: for every request-paused event and every caller request the handler issues
exactly one command, for the request id of the event; the command is
`failRequest` with reason `BlockedByClient` exactly when the resource type is
`Image` or `Other`, and it is a `continueRequest` exactly when it is not. -/
theorem requestPaused_one_command (req : cRequest) (l : Listener) (ev : EventRequestPaused) :
    ∃ c, (handle req l (Event.requestPaused ev)).2 = [c] ∧
      c.RequestID = ev.RequestID ∧
      (c = Command.failRequest ev.RequestID ErrorReasonBlockedByClient ↔
        blocked ev.ResourceType) ∧
      ((∃ p, c = Command.continueRequest p) ↔ ¬ blocked ev.ResourceType) := by
  by_cases h : blocked ev.ResourceType
  · refine ⟨_, requestPausedTask_blocked req ev h, rfl, ?_, ?_⟩
    · simp [h]
    · simp [h]
  · obtain ⟨p, hp, hid, -⟩ := requestPausedTask_continue req ev h
    refine ⟨_, hp, hid, ?_, ?_⟩
    · simp [h]
    · simp [h]

/-- Instance of C1: the icon request of the `GET` example is failed, the document
request of the `POST` example is continued. -/
theorem requestPaused_one_command_witness :
    (∃ c, (handle mainGetRequest Listener.init
        (Event.requestPaused
          ⟨"interception-job-2.0", ⟨"https://api.myip.com/favicon.ico", "GET", []⟩, "Other"⟩)).2 = [c] ∧
      c = Command.failRequest "interception-job-2.0" ErrorReasonBlockedByClient) ∧
    (∃ c, (handle mainPostRequest Listener.init (Event.requestPaused pausedDocument)).2 = [c] ∧
      ∃ p, c = Command.continueRequest p) := by
  constructor
  · obtain ⟨c, hc, -, hfail, -⟩ := requestPaused_one_command mainGetRequest Listener.init
      ⟨"interception-job-2.0", ⟨"https://api.myip.com/favicon.ico", "GET", []⟩, "Other"⟩
    exact ⟨c, hc, hfail.2 (by decide)⟩
  · obtain ⟨c, hc, -, -, hcont⟩ :=
      requestPaused_one_command mainPostRequest Listener.init pausedDocument
    exact ⟨c, hc, hcont.2 (by decide)⟩

/-- C2: when the request is continued and the caller's header map is not empty, the
header entries of `continueRequest` are, as a set of pairs, the entries of the
caller's map, one entry per key, whatever headers the paused request carries;
when the map is nil or empty the command has no header entries. -/
theorem requestPaused_headers (req : cRequest) (ev : EventRequestPaused)
    (h : ¬ blocked ev.ResourceType) :
    ∃ p, requestPausedTask req ev = [Command.continueRequest p] ∧
      (∀ m, req.Headers = some m → 0 < m.len →
        (∀ k v, ({ Name := k, Value := v } : HeaderEntry) ∈ p.Headers ↔ (k, v) ∈ m.entries) ∧
        (p.Headers.map HeaderEntry.Name).Nodup ∧ p.Headers.length = m.len) ∧
      ((req.Headers = none ∨ ∃ m, req.Headers = some m ∧ m.len = 0) → p.Headers = []) := by
  obtain ⟨p, hp, -, -, hH, -⟩ := requestPausedTask_continue req ev h
  refine ⟨p, hp, ?_, ?_⟩
  · intro m hm hlen
    rw [hm] at hH
    simp only [gt_iff_lt, hlen, if_true] at hH
    rw [hH]
    refine ⟨?_, ?_, ?_⟩
    · intro k v
      simp only [List.mem_map, HeaderEntry.mk.injEq, Prod.exists]
      constructor
      · rintro ⟨a, b, hab, rfl, rfl⟩
        exact hab
      · intro hkv
        exact ⟨k, v, hkv, rfl, rfl⟩
    · have hn := m.nodup
      simp only [List.map_map]
      exact hn
    · simp [GoMap.len]
  · rintro (hnone | ⟨m, hm, hlen⟩)
    · rw [hnone] at hH
      exact hH
    · rw [hm] at hH
      simp only [gt_iff_lt, hlen, Nat.lt_irrefl, if_false] at hH
      exact hH

/-- Instance of C2 at the `POST` request of `main`. -/
theorem requestPaused_headers_witness :
    ¬ blocked pausedDocument.ResourceType ∧
    ∃ p, requestPausedTask mainPostRequest pausedDocument = [Command.continueRequest p] ∧
      p.Headers = [{ Name := "Content-Type", Value := "application/json; charset=utf-8" }] := by
  refine ⟨by decide, ?_⟩
  obtain ⟨p, hp, hsome, -⟩ := requestPaused_headers mainPostRequest pausedDocument (by decide)
  refine ⟨p, hp, ?_⟩
  obtain ⟨hmem, -, hlen⟩ := hsome _ rfl (by decide)
  have h1 : ({ Name := "Content-Type", Value := "application/json; charset=utf-8" } : HeaderEntry)
      ∈ p.Headers := (hmem _ _).2 (by decide)
  have h2 : p.Headers.length = 1 := hlen
  match hp' : p.Headers, h1, h2 with
  | [x], h1, _ =>
    simp only [List.mem_singleton] at h1
    rw [h1]

/-- C3: when the request is continued, post data is attached exactly when the
caller's method is `POST`, `PUT` or `DELETE` and the caller's body is not empty;
the attached post data decodes, as standard base64, to the caller's body; for
every other method nothing is attached, whatever the body. -/
theorem requestPaused_postData (req : cRequest) (ev : EventRequestPaused)
    (h : ¬ blocked ev.ResourceType) :
    ∃ p, requestPausedTask req ev = [Command.continueRequest p] ∧
      (p.PostData ≠ "" ↔
        carriesBody req.Method ∧ ∃ body, req.Body = some body ∧ body ≠ []) ∧
      (∀ body, carriesBody req.Method → req.Body = some body → body ≠ [] →
        base64.DecodeString p.PostData = some body) ∧
      (¬ carriesBody req.Method → p.PostData = "") := by
  obtain ⟨p, hp, -, -, -, hD⟩ := requestPausedTask_continue req ev h
  have hne : ∀ body : List Byte, body ≠ [] → base64.EncodeToString body ≠ "" := by
    intro body hb heq
    have : (base64.EncodeToString body).data = [] := by rw [heq]
    exact base64.encode_ne_nil hb this
  refine ⟨p, hp, ?_, ?_, ?_⟩
  · by_cases hM : carriesBody req.Method
    · rcases hB : req.Body with _ | body
      · simp [hD, hM, hB]
      · by_cases hb : body = []
        · simp [hD, hM, hB, hb]
        · have hlen : 0 < body.length := List.length_pos.mpr hb
          simp [hD, hM, hB, hb, hlen, hne body hb]
    · simp [hD, hM]
  · intro body hM hB hb
    have hlen : 0 < body.length := List.length_pos.mpr hb
    simp only [hD, hM, hB, if_true, gt_iff_lt, hlen]
    exact base64.DecodeString_EncodeToString body
  · intro hM
    simp [hD, hM]

/-- Instance of C3 at the `POST` request of `main`: the post data decodes to the
body of the example. -/
theorem requestPaused_postData_witness :
    ¬ blocked pausedDocument.ResourceType ∧
    ∃ p, requestPausedTask mainPostRequest pausedDocument = [Command.continueRequest p] ∧
      base64.DecodeString p.PostData = some (bytesOf "\x7b \"test\": \"testdata\"\x7d") := by
  refine ⟨by decide, ?_⟩
  obtain ⟨p, hp, -, hdec, -⟩ := requestPaused_postData mainPostRequest pausedDocument (by decide)
  exact ⟨p, hp, hdec _ (by decide) rfl (by decide)⟩

/-! ## Tracking and capture -/

theorem onRequestWillBeSent_eq (l : Listener) (e : EventRequestWillBeSent) :
    onRequestWillBeSent l e = if qualifies e then { l with reqID := e.RequestID } else l := by
  unfold onRequestWillBeSent qualifies
  cases Headers.hasKey e.Request.Headers "Referer" <;>
    cases HasPrefix e.Request.URL "http" <;> simp

theorem reqID_after_request_sent (req : cRequest) (l : Listener)
    (es : List EventRequestWillBeSent) :
    (handleAll req l (es.map Event.requestWillBeSent)).1.reqID
      = match (es.filter qualifies).getLast? with
        | some e => e.RequestID
        | none => l.reqID := by
  induction es using List.reverseRecOn with
  | nil => simp [handleAll]
  | append_singleton es e ih =>
    rw [List.map_append, handleAll_append, List.filter_append]
    simp only [List.map_cons, List.map_nil, handleAll, handle, onRequestWillBeSent_eq,
      List.filter_cons, List.filter_nil]
    by_cases hq : qualifies e = true
    · simp [hq, List.getLast?_append]
    · simp [hq, ih]

/-- C4: starting with the tracked identifier unset (`""`), after any finite sequence
of request-sent events the tracked identifier is the request id of the last
event of the sequence whose URL starts with `http` and whose headers have no
`Referer` key; it is still unset when no event of the sequence is such. -/
theorem tracked_is_last_qualifying (req : cRequest) (es : List EventRequestWillBeSent) :
    trackedAfter req (es.map Event.requestWillBeSent)
      = match (es.filter
          (fun e => HasPrefix e.Request.URL "http" && !(e.Request.Headers.hasKey "Referer"))).getLast? with
        | some e => e.RequestID
        | none => "" := by
  have h := reqID_after_request_sent req Listener.init es
  exact h

/-- C5: handling an event sets the response holder to the response of the event when
the event is response-received with the tracked identifier, and leaves it as it
was in every other case; request-paused and request-sent events leave the
holder as it was, response-received and request-paused events leave the
tracked identifier as it was. -/
theorem handle_frame (req : cRequest) (l : Listener) (ev : Event) :
    (∀ e, ev = Event.responseReceived e → e.RequestID = l.reqID →
      (handle req l ev).1.res = some e.Response) ∧
    ((¬ ∃ e, ev = Event.responseReceived e ∧ e.RequestID = l.reqID) →
      (handle req l ev).1.res = l.res) ∧
    (∀ e, ev = Event.requestPaused e → (handle req l ev).1 = l) ∧
    (∀ e, ev = Event.requestWillBeSent e → (handle req l ev).1.res = l.res) ∧
    (∀ e, ev = Event.responseReceived e → (handle req l ev).1.reqID = l.reqID) := by
  refine ⟨?_, ?_, ?_, ?_, ?_⟩
  · rintro e rfl hid
    simp [handle, onResponseReceived, hid]
  · intro hno
    cases ev with
    | requestWillBeSent e =>
      simp only [handle, onRequestWillBeSent_eq]
      split <;> rfl
    | responseReceived e =>
      have hne : ¬ e.RequestID = l.reqID := fun hid => hno ⟨e, rfl, hid⟩
      simp [handle, onResponseReceived, hne]
    | requestPaused e => rfl
    | other n => rfl
  · rintro e rfl
    rfl
  · rintro e rfl
    simp only [handle, onRequestWillBeSent_eq]
    split <;> rfl
  · rintro e rfl
    simp only [handle, onResponseReceived]
    split <;> rfl

/-- Instance of C5: a response-received event with the tracked identifier is
captured, one with another identifier is not. -/
theorem handle_frame_witness :
    (handle mainGetRequest { reqID := "7", res := none }
      (Event.responseReceived ⟨"7", ⟨"https://api.myip.com", 200, []⟩⟩)).1.res
        = some ⟨"https://api.myip.com", 200, []⟩ ∧
    (handle mainGetRequest { reqID := "7", res := none }
      (Event.responseReceived ⟨"8", ⟨"https://api.myip.com/favicon.ico", 404, []⟩⟩)).1.res
        = none :=
  ⟨(handle_frame mainGetRequest { reqID := "7", res := none } _).1 _ rfl rfl,
   (handle_frame mainGetRequest { reqID := "7", res := none } _).2.1
     (by rintro ⟨e, he, hid⟩; cases he; revert hid; decide)⟩

/-- C10, as stated, fails: a request-sent event changes a tracked identifier that
is already set, and it also does so for a URL that starts with `http` without
having the scheme `http://` or `https://`. -/
theorem requestSent_overwrites :
    (¬ ∀ (req : cRequest) (l : Listener) (e : EventRequestWillBeSent),
      (handle req l (Event.requestWillBeSent e)).1.reqID ≠ l.reqID → l.reqID = "") ∧
    (¬ ∀ (req : cRequest) (l : Listener) (e : EventRequestWillBeSent),
      (handle req l (Event.requestWillBeSent e)).1.reqID ≠ l.reqID →
        hasHTTPScheme e.Request.URL = true) := by
  constructor
  · intro hall
    have h := hall mainGetRequest { reqID := "1000.1", res := none }
      ⟨"1000.2", ⟨"https://api.myip.com/data.json", "GET", []⟩⟩ (by decide)
    revert h
    decide
  · intro hall
    have h := hall mainGetRequest { reqID := "", res := none }
      ⟨"1000.3", ⟨"httpx://api.myip.com/", "GET", []⟩⟩ (by decide)
    revert h
    decide

/-- C10, amended: a request-sent event changes the tracked identifier only if its
URL starts with `http` and it has no `Referer` header; in that case the tracked
identifier becomes the id of the event, whether or not an identifier was tracked
before, and otherwise it stays as it was. The event issues no command and
leaves the response holder as it was. -/
theorem requestSent_effect (req : cRequest) (l : Listener) (e : EventRequestWillBeSent) :
    ((handle req l (Event.requestWillBeSent e)).1.reqID ≠ l.reqID →
      HasPrefix e.Request.URL "http" = true ∧ e.Request.Headers.hasKey "Referer" = false) ∧
    (HasPrefix e.Request.URL "http" = true → e.Request.Headers.hasKey "Referer" = false →
      (handle req l (Event.requestWillBeSent e)).1.reqID = e.RequestID) ∧
    (¬ (HasPrefix e.Request.URL "http" = true ∧ e.Request.Headers.hasKey "Referer" = false) →
      (handle req l (Event.requestWillBeSent e)).1.reqID = l.reqID) ∧
    (handle req l (Event.requestWillBeSent e)).1.res = l.res ∧
    (handle req l (Event.requestWillBeSent e)).2 = [] := by
  simp only [handle, onRequestWillBeSent]
  cases Headers.hasKey e.Request.Headers "Referer" <;>
    cases HasPrefix e.Request.URL "http" <;> simp

/-- Instance of C10 amended: an identifier that is already tracked is replaced. -/
theorem requestSent_effect_witness :
    (handle mainGetRequest { reqID := "1000.1", res := none }
      (Event.requestWillBeSent
        ⟨"1000.2", ⟨"https://api.myip.com/data.json", "GET", []⟩⟩)).1.reqID = "1000.2" :=
  (requestSent_effect mainGetRequest { reqID := "1000.1", res := none }
    ⟨"1000.2", ⟨"https://api.myip.com/data.json", "GET", []⟩⟩).2.1 (by decide) (by decide)

/-! ## The call -/

@[simp]
theorem executedSteps_append (xs ys : List Op) :
    executedSteps (xs ++ ys) = executedSteps xs ++ executedSteps ys := by
  simp [executedSteps, List.filterMap_append]

@[simp]
theorem executedSteps_commands (cs : List Command) :
    executedSteps (cs.map Op.command) = [] := by
  induction cs with
  | nil => rfl
  | cons c cs ih => simp [executedSteps]

theorem count_commands (o : Op) (h : ∀ c, o ≠ Op.command c) (cs : List Command) :
    (cs.map Op.command).count o = 0 := by
  rw [List.count_eq_zero]
  intro hmem
  obtain ⟨c, -, hc⟩ := List.mem_map.mp hmem
  exact h c hc.symm

theorem ChromeRequest_fst (req : cRequest) (b : Browser) :
    (ChromeRequest req b).1 = (ChromeRequestBody req b).1 := rfl

theorem ChromeRequest_snd (req : cRequest) (b : Browser) :
    (ChromeRequest req b).2 = (ChromeRequestBody req b).2 ++ [Op.cancel] := rfl

theorem ChromeRequestBody_counts (req : cRequest) (b : Browser) :
    (ChromeRequestBody req b).2.count Op.cancel = 0 ∧
    (ChromeRequestBody req b).2.count Op.Stop = 1 := by
  obtain ⟨rs, ne, fe, nav, wr, gd, goh, evs⟩ := b
  have hc := count_commands Op.cancel (by intro c h; cases h)
  have hs := count_commands Op.Stop (by intro c h; cases h)
  rcases rs with _ | e; swap
  · simp [ChromeRequestBody, Run]
  rcases ne with _ | e; swap
  · simp [ChromeRequestBody, Run, TasksDo, protocolStep, deliver]
  rcases fe with _ | e; swap
  · simp [ChromeRequestBody, Run, TasksDo, protocolStep, deliver]
  rcases nav with _ | e; swap
  · simp [ChromeRequestBody, Run, TasksDo, protocolStep, deliver, listenAction, RunWithTimeOut,
      List.count_append, hc, hs]
  rcases wr with _ | e; swap
  · simp [ChromeRequestBody, Run, TasksDo, protocolStep, deliver, listenAction, RunWithTimeOut,
      List.count_append, hc, hs]
  rcases gd with e | n
  · simp [ChromeRequestBody, Run, TasksDo, protocolStep, deliver, listenAction, RunWithTimeOut,
      documentAction, List.count_append, hc, hs]
  rcases hg : goh n with ⟨html, _ | e⟩
  · simp only [ChromeRequestBody, Run, TasksDo, protocolStep, deliver, listenAction,
      RunWithTimeOut, documentAction, hg]
    split <;> simp [List.count_append, hc, hs]
  · simp [ChromeRequestBody, Run, TasksDo, protocolStep, deliver, listenAction, RunWithTimeOut,
      documentAction, List.count_append, hc, hs, hg]

/-- C9: on every way out of `ChromeRequest` (a response, an error of any step, a
panic) the deferred `cancel()` of the browser context, which stops the session
and releases its context, has run exactly once and is the last operation of the
call; the statement `chromedp.Stop()` is reached exactly once as well. -/
theorem teardown_once (req : cRequest) (b : Browser) :
    (ChromeRequest req b).2.count Op.cancel = 1 ∧
    (ChromeRequest req b).2.getLast? = some Op.cancel ∧
    (ChromeRequest req b).2.count Op.Stop = 1 := by
  obtain ⟨h1, h2⟩ := ChromeRequestBody_counts req b
  rw [ChromeRequest_snd]
  refine ⟨?_, ?_, ?_⟩
  · simp [List.count_append, h1]
  · simp
  · simp [List.count_append, h2]


@[simp]
theorem executedSteps_nil : executedSteps [] = [] := rfl

@[simp]
theorem executedSteps_step (s : Step) (xs : List Op) :
    executedSteps (Op.step s :: xs) = s :: executedSteps xs := rfl

@[simp]
theorem executedSteps_NewExecAllocator (xs : List Op) :
    executedSteps (Op.NewExecAllocator :: xs) = executedSteps xs := rfl

@[simp]
theorem executedSteps_NewContext (xs : List Op) :
    executedSteps (Op.NewContext :: xs) = executedSteps xs := rfl

@[simp]
theorem executedSteps_Stop (xs : List Op) :
    executedSteps (Op.Stop :: xs) = executedSteps xs := rfl

@[simp]
theorem executedSteps_Done (xs : List Op) :
    executedSteps (Op.Done :: xs) = executedSteps xs := rfl

@[simp]
theorem executedSteps_cancel (xs : List Op) :
    executedSteps (Op.cancel :: xs) = executedSteps xs := rfl

theorem handleAll_delivered (req : cRequest) (b : Browser) :
    (handleAll req
      (handleAll req
        (handleAll req (handleAll req Listener.init (b.events Step.navigate)).1
          (b.events Step.waitReady)).1
        (b.events Step.getDocument)).1
      (b.events Step.getOuterHTML)).1
      = (handleAll req Listener.init (delivered b)).1 := by
  simp [delivered, handleAll_append]

/-- The result and the executed steps of the body, by the first failing step. -/
theorem ChromeRequestBody_spec (req : cRequest) (b : Browser) :
    match firstFailure b with
    | some (s, e) =>
      (ChromeRequestBody req b).1 = Outcome.returned none (some e) ∧
      executedSteps (ChromeRequestBody req b).2 = pipeline.takeWhile (fun t => t ≠ s) ++ [s]
    | none =>
      (ChromeRequestBody req b).1
        = (match (handleAll req Listener.init (delivered b)).1.res with
          | none => Outcome.panicked "invalid memory address or nil pointer dereference"
          | some res =>
            Outcome.returned
              (some { Status := res.Status, URL := req.URL, Headers := res.Headers,
                      Body := bytesOf b.outerHTML }) none) ∧
      executedSteps (ChromeRequestBody req b).2 = pipeline := by
  have hd := handleAll_delivered req b
  obtain ⟨rs, ne, fe, nav, wr, gd, goh, evs⟩ := b
  have hinit : ({ reqID := "", res := Listener.init.res } : Listener) = Listener.init := rfl
  rcases rs with _ | e; swap
  · simp [ChromeRequestBody, Run, firstFailure, pipeline, Browser.stepError]
  rcases ne with _ | e; swap
  · simp [ChromeRequestBody, Run, TasksDo, protocolStep, deliver, firstFailure, pipeline,
      Browser.stepError]
  rcases fe with _ | e; swap
  · simp [ChromeRequestBody, Run, TasksDo, protocolStep, deliver, firstFailure, pipeline,
      Browser.stepError]
  rcases nav with _ | e; swap
  · simp [ChromeRequestBody, Run, TasksDo, protocolStep, deliver, listenAction, RunWithTimeOut,
      firstFailure, pipeline, Browser.stepError]
  rcases wr with _ | e; swap
  · simp [ChromeRequestBody, Run, TasksDo, protocolStep, deliver, listenAction, RunWithTimeOut,
      firstFailure, pipeline, Browser.stepError]
  rcases gd with e | n
  · simp [ChromeRequestBody, Run, TasksDo, protocolStep, deliver, listenAction, RunWithTimeOut,
      documentAction, firstFailure, pipeline, Browser.stepError]
  rcases hg : goh n with ⟨html, _ | e⟩
  · simp [ChromeRequestBody, Run, TasksDo, protocolStep, deliver, listenAction, RunWithTimeOut,
      documentAction, firstFailure, pipeline, Browser.stepError, hg, Browser.outerHTML]
    dsimp only at hd
    simp only [hinit, hd]
    generalize (handleAll req Listener.init _).1.res = r
    cases r <;> simp
  · simp [ChromeRequestBody, Run, TasksDo, protocolStep, deliver, listenAction, RunWithTimeOut,
      documentAction, firstFailure, pipeline, Browser.stepError, hg]


theorem handleAll_snoc_res (req : cRequest) (l : Listener) (evs : List Event) (ev : Event) :
    (handleAll req l (evs ++ [ev])).1 = (handle req (handleAll req l evs).1 ev).1 := by
  rw [handleAll_append]
  simp [handleAll]

theorem captured_is_last (req : cRequest) (evs : List Event) (r : NetworkResponse)
    (h : (handleAll req Listener.init evs).1.res = some r) : LastCaptured req evs r := by
  induction evs using List.reverseRecOn generalizing r with
  | nil => simp [handleAll, Listener.init] at h
  | append_singleton evs ev ih =>
    rw [handleAll_snoc_res] at h
    by_cases hm : ∃ e, ev = Event.responseReceived e ∧ e.RequestID = trackedAfter req evs
    · obtain ⟨e, rfl, hid⟩ := hm
      have hid' : e.RequestID = (handleAll req Listener.init evs).1.reqID := hid
      have hres : (handle req (handleAll req Listener.init evs).1 (Event.responseReceived e)).1.res
          = some e.Response := by
        simp only [handle, onResponseReceived]
        rw [if_pos hid']
      rw [hres] at h
      refine ⟨evs, e, [], rfl, Option.some.inj h, hid, ?_⟩
      intro post1 e2 post2 hsplit
      cases post1 <;> simp at hsplit
    · have hkeep : (handle req (handleAll req Listener.init evs).1 ev).1.res
          = (handleAll req Listener.init evs).1.res := by
        cases ev with
        | requestWillBeSent e =>
          simp only [handle, onRequestWillBeSent_eq]
          split <;> rfl
        | responseReceived e =>
          have hne : ¬ e.RequestID = (handleAll req Listener.init evs).1.reqID :=
            fun hid => hm ⟨e, rfl, hid⟩
          simp only [handle, onResponseReceived]
          rw [if_neg hne]
        | requestPaused e => rfl
        | other n => rfl
      rw [hkeep] at h
      obtain ⟨pre, e, post, hevs, hr, hid, hlast⟩ := ih r h
      refine ⟨pre, e, post ++ [ev], ?_, hr, hid, ?_⟩
      · rw [hevs]; simp
      · intro post1 e2 post2 hsplit
        rcases List.eq_nil_or_concat post2 with rfl | ⟨post2', x, rfl⟩
        · have h1 : post ++ [ev] = (post1 ++ []) ++ [Event.responseReceived e2] := by
            rw [hsplit]; simp
          have h2 := List.append_inj' h1 rfl
          simp only [List.append_nil, List.cons.injEq, and_true] at h2
          obtain ⟨hpost, hev⟩ := h2
          intro hid2
          apply hm
          refine ⟨e2, hev, ?_⟩
          rw [hid2, hevs, hpost]
        · have h1 : post ++ [ev] = (post1 ++ Event.responseReceived e2 :: post2') ++ [x] := by
            rw [hsplit]; simp [List.concat_eq_append]
          have h2 := List.append_inj' h1 rfl
          exact hlast post1 e2 post2' h2.1


/-- When no step fails, no step answers with an error. -/
theorem stepError_none_of_firstFailure (b : Browser) (h : firstFailure b = none) (s : Step) :
    b.stepError s = none := by
  unfold firstFailure at h
  rw [List.findSome?_eq_none_iff] at h
  have hs : s ∈ pipeline := by cases s <;> simp [pipeline]
  have := h s hs
  cases hse : b.stepError s with
  | none => rfl
  | some e => rw [hse] at this; simp at this

theorem firstFailure_none (b : Browser) (node : Nat) (html : String)
    (h1 : b.runSetup = none) (h2 : b.networkEnable = none) (h3 : b.fetchEnable = none)
    (h4 : b.navigate = none) (h5 : b.waitReady = none) (h6 : b.getDocument = Except.ok node)
    (h7 : b.getOuterHTML node = (html, none)) :
    firstFailure b = none ∧ b.outerHTML = html := by
  simp [firstFailure, pipeline, Browser.stepError, Browser.outerHTML, h1, h2, h3, h4, h5, h6, h7]

/-- When every step succeeds and the response holder is still `nil`, the call does
not return: reading `res.Status` panics. -/
theorem ChromeRequest_no_capture (req : cRequest) (b : Browser) (node : Nat) (html : String)
    (h1 : b.runSetup = none) (h2 : b.networkEnable = none) (h3 : b.fetchEnable = none)
    (h4 : b.navigate = none) (h5 : b.waitReady = none) (h6 : b.getDocument = Except.ok node)
    (h7 : b.getOuterHTML node = (html, none))
    (hres : (handleAll req Listener.init (delivered b)).1.res = none) :
    (ChromeRequest req b).1
      = Outcome.panicked "invalid memory address or nil pointer dereference" := by
  have hspec := ChromeRequestBody_spec req b
  rw [(firstFailure_none b node html h1 h2 h3 h4 h5 h6 h7).1] at hspec
  rw [ChromeRequest_fst, hspec.1, hres]

/-- C6, on the code: for the blank page every step succeeds and no response is
captured; the call panics on `res.Status` instead of returning a response with
zero-value status and headers. -/
theorem ChromeRequest_blank_panics :
    ChromeRequest blankRequest (okBrowser blankHTML [])
      = (Outcome.panicked "invalid memory address or nil pointer dereference",
          [Op.NewExecAllocator, Op.NewContext, Op.step Step.runSetup,
            Op.step Step.networkEnable, Op.step Step.fetchEnable, Op.step Step.listenTarget,
            Op.step Step.navigate, Op.step Step.waitReady, Op.step Step.getDocument,
            Op.step Step.getOuterHTML, Op.Stop, Op.Done, Op.cancel]) := by
  decide

/-- C7: when every step succeeds and a response was captured, the call returns no
error and a response whose status and headers are those of the last
response-received event that carried the tracked identifier, whose URL is the
URL of the caller's request and whose body is the bytes of the markup returned
for the document node. -/
theorem ChromeRequest_captured (req : cRequest) (b : Browser) (node : Nat) (html : String)
    (r : NetworkResponse)
    (h1 : b.runSetup = none) (h2 : b.networkEnable = none) (h3 : b.fetchEnable = none)
    (h4 : b.navigate = none) (h5 : b.waitReady = none) (h6 : b.getDocument = Except.ok node)
    (h7 : b.getOuterHTML node = (html, none))
    (hres : (handleAll req Listener.init (delivered b)).1.res = some r) :
    (ChromeRequest req b).1
      = Outcome.returned
          (some { Status := r.Status, URL := req.URL, Headers := r.Headers, Body := bytesOf html })
          none ∧
    LastCaptured req (delivered b) r := by
  have hspec := ChromeRequestBody_spec req b
  obtain ⟨hff, hhtml⟩ := firstFailure_none b node html h1 h2 h3 h4 h5 h6 h7
  rw [hff] at hspec
  refine ⟨?_, captured_is_last req (delivered b) r hres⟩
  rw [ChromeRequest_fst, hspec.1, hres, hhtml]

/-- Instance of C7 at the `GET` request of `main`. -/
theorem ChromeRequest_captured_witness :
    (ChromeRequest mainGetRequest (okBrowser "<html></html>" getEvents)).1
      = Outcome.returned
          (some { Status := 200, URL := "https://api.myip.com",
                  Headers := [("Content-Type", "text/html")],
                  Body := bytesOf "<html></html>" })
          none ∧
    LastCaptured mainGetRequest (delivered (okBrowser "<html></html>" getEvents))
      ⟨"https://api.myip.com/", 200, [("Content-Type", "text/html")]⟩ :=
  ChromeRequest_captured mainGetRequest (okBrowser "<html></html>" getEvents) 1 "<html></html>"
    ⟨"https://api.myip.com/", 200, [("Content-Type", "text/html")]⟩
    rfl rfl rfl rfl rfl rfl rfl (by decide)

/-- C8: when a step fails, the call returns the error of the first failing step and
a nil response, and the steps executed are those of the pipeline up to and
including that step; a response is returned only when no step fails, and then
without an error. -/
theorem ChromeRequest_failure (req : cRequest) (b : Browser) :
    (∀ s e, firstFailure b = some (s, e) →
      (ChromeRequest req b).1 = Outcome.returned none (some e) ∧
      executedSteps (ChromeRequest req b).2 = pipeline.takeWhile (fun t => t ≠ s) ++ [s]) ∧
    (∀ resp err, (ChromeRequest req b).1 = Outcome.returned (some resp) err →
      (∀ s, b.stepError s = none) ∧ err = none) := by
  have hspec := ChromeRequestBody_spec req b
  rw [ChromeRequest_fst, ChromeRequest_snd]
  constructor
  · intro s e hff
    rw [hff] at hspec
    simp only [executedSteps_append, executedSteps_cancel, executedSteps_nil, List.append_nil]
    exact hspec
  · intro resp err hret
    cases hff : firstFailure b with
    | some se =>
      obtain ⟨s, e⟩ := se
      rw [hff] at hspec
      rw [hspec.1] at hret
      simp at hret
    | none =>
      rw [hff] at hspec
      refine ⟨stepError_none_of_firstFailure b hff, ?_⟩
      rw [hspec.1] at hret
      cases hr : (handleAll req Listener.init (delivered b)).1.res with
      | none => rw [hr] at hret; simp at hret
      | some r =>
        rw [hr] at hret
        simp only [Outcome.returned.injEq] at hret
        exact hret.2.symm

/-- Instance of C8: a navigation that runs into its deadline. -/
theorem ChromeRequest_failure_witness :
    firstFailure timeoutBrowser = some (Step.navigate, ⟨"context deadline exceeded"⟩) ∧
    (ChromeRequest mainGetRequest timeoutBrowser).1
      = Outcome.returned none (some ⟨"context deadline exceeded"⟩) ∧
    executedSteps (ChromeRequest mainGetRequest timeoutBrowser).2
      = [Step.runSetup, Step.networkEnable, Step.fetchEnable, Step.listenTarget, Step.navigate] :=
  ⟨by decide,
   (ChromeRequest_failure mainGetRequest timeoutBrowser).1 Step.navigate
     ⟨"context deadline exceeded"⟩ (by decide)⟩

end ChromedpPost
